import Mathlib

/-!
Shallow embedding of `src/nfc_reader/do_card.py` (MIFARE Classic 1K reader).

Python integers are modelled as `Nat` (all values handled are bytes or small
counters, and no arithmetic in the modelled code can go negative or overflow,
except where noted).  `bytearray` / byte lists are modelled as `List Nat`.
Python exceptions are modelled with `Except`: the error value carries the
state as mutated up to the raise point, matching Python's in-place mutation.
-/

namespace DoCard

/-! ## Constants (do_card.py lines 17-21) -/

def MIFARE_1K_blocks_per_sector : Nat := 4
def MIFARE_1K_total_sectors : Nat := 16
def MIFARE_1K_bytes_per_block : Nat := 16
def MIFARE_1K_bytes_per_key : Nat := 6
def MIFARE_1K_default_key : List Nat := List.replicate MIFARE_1K_bytes_per_key 0xFF

/-! ## Status enumeration (do_card.py lines 31-39, `class status(Enum)`) -/

inductive status
  | NOINIT
  | OK
  | NOT_READ
  | AUTH_ERROR
  | READ_ERROR
  | WRITE_ERROR
  | KEY_ERROR
  | NO_READERS
  deriving DecidableEq, Repr

/-! ## Access-bits decoding (do_card.py lines 41-68) -/

/-- Embedding of `parseAccessBits(b6, b7)` (lines 41-50).  The source first
XORs both inputs with `0xFF`, then assembles one value per block.  Note the
source's middle component is literally `(... & 0x01) < 1` — a *comparison*,
not a shift; Python evaluates it to the bool `True`/`False`, which `|` then
treats as `1`/`0`.  We translate that comparison verbatim with an `if`. -/
def parseAccessBits (b6 b7 : Nat) : List Nat :=
  let b6 := b6 ^^^ 0xFF
  let b7 := b7 ^^^ 0xFF
  [ ((b6 &&& 0x01) <<< 2) ||| (if (b7 &&& 0x01) < 1 then 1 else 0) ||| ((b7 >>> 4) &&& 0x01),
    (((b6 >>> 1) &&& 0x01) <<< 2) ||| (if ((b7 >>> 1) &&& 0x01) < 1 then 1 else 0) ||| ((b7 >>> 5) &&& 0x01),
    (((b6 >>> 2) &&& 0x01) <<< 2) ||| (if ((b7 >>> 2) &&& 0x01) < 1 then 1 else 0) ||| ((b7 >>> 6) &&& 0x01),
    (((b6 >>> 3) &&& 0x01) <<< 2) ||| (if ((b7 >>> 3) &&& 0x01) < 1 then 1 else 0) ||| ((b7 >>> 7) &&& 0x01) ]

/-- Embedding of the `bitAccessMap` dictionary (lines 52-61); `.get` on a
missing key yields Python `None`, hence the `Option`. -/
def bitAccessMap (code : Nat) : Option String :=
  if code = 0 then some "R(A,B) W(A,B) I(A,B) D(A,B)"
  else if code = 1 then some "R(A,B) W(B,B) I(-) D(-)"
  else if code = 2 then some "R(A,B) W(B) I(A,B) D(A,B)"
  else if code = 3 then some "R(B) W(B) I(-) D(-)"
  else if code = 4 then some "R(A,B) W(B) I(A,B) D(A,B)"
  else if code = 5 then some "R(B) W(-) I(-,B) D(-,B)"
  else if code = 6 then some "R(A,B) W(-,B) I(-) D(-)"
  else if code = 7 then some "R(A,B) W(-) I(-) D(-)"
  else none

/-- Embedding of `accessBitsToStr(accessBytes)` (lines 63-68): decode bytes 0
and 1 and look each per-block code up in `bitAccessMap`. -/
def accessBitsToStr (accessBytes : List Nat) : List (Option String) :=
  (parseAccessBits (accessBytes.getD 0 0) (accessBytes.getD 1 0)).map bitAccessMap

/-- Access-code formula exactly as the spec words it (spec section 4.2):
bit2 = bit `i` of inverted `b6`, bit1 = bit `i` of inverted `b7`,
bit0 = bit `i+4` of inverted `b7`, assembled as `(bit2<<2)|(bit1<<1)|bit0`.
Stated separately from `parseAccessBits` so the two can be compared. -/
def specAccessCode (b6 b7 i : Nat) : Nat :=
  let nb6 := b6 ^^^ 0xFF
  let nb7 := b7 ^^^ 0xFF
  (((nb6 >>> i) &&& 1) <<< 2) ||| ((((nb7 >>> i) &&& 1)) <<< 1) ||| ((nb7 >>> (i + 4)) &&& 1)

/-! ## Dump data model (do_card.py lines 71-126, `class dumpMifare_1k`)

Fresh objects are modelled by explicit `init` values mirroring the Python
constructors (`bytearray(n)` is `n` zero bytes). -/

/-- Data of one block (lines 74-77). -/
structure block where
  data : List Nat
  status : status
  deriving DecidableEq, Repr

def block.init : block :=
  { data := List.replicate MIFARE_1K_bytes_per_block 0, status := status.NOINIT }

/-- Data of block 0 of sector 0 (lines 80-92). -/
structure head where
  UID : List Nat
  BCC : Nat
  SAK : List Nat
  SIGN : List Nat
  deriving DecidableEq, Repr

def head.init : head :=
  { UID := List.replicate 4 0, BCC := 0x00, SAK := List.replicate 3 0,
    SIGN := List.replicate 8 0 }

/-- Embedding of `head.read(self, block)` (lines 87-92).  Python mutates the
fields in order `UID`, `BCC`, `SAK`, `SIGN`; `block.data[4]` raises
`IndexError` when the data is shorter than 5 bytes, and in that case `UID`
has already been updated — the `.error` value carries that partial state. -/
def head.read (h : head) (b : block) : Except head head :=
  if b.status = status.OK then
    let h1 := { h with UID := b.data.take 4 }
    if 4 < b.data.length then
      Except.ok { h1 with BCC := b.data.getD 4 0, SAK := (b.data.drop 5).take 3,
                          SIGN := (b.data.drop 8).take 8 }
    else Except.error h1
  else Except.ok h

/-- Data of the trailer block of each sector (lines 98-104). -/
structure trailer where
  keyA : List Nat
  keyB : List Nat
  accessBits : List Nat
  GPB : Nat
  status : status
  deriving DecidableEq, Repr

def trailer.init : trailer :=
  { keyA := MIFARE_1K_default_key, keyB := MIFARE_1K_default_key,
    accessBits := List.replicate 3 0, GPB := 0x00, status := status.NOINIT }

/-- Embedding of `trailer.processLastBlock(self, data)` (lines 106-111).
`keyA` is deliberately not assigned (the source line is commented out:
"always zero, keyA is unreadable").  Python mutates `accessBits` first;
`data[9]` raises `IndexError` when the data is shorter than 10 bytes, so the
`.error` value carries the trailer with only `accessBits` updated. -/
def trailer.processLastBlock (t : trailer) (data : List Nat) : Except trailer trailer :=
  let t1 := { t with accessBits := (data.drop 6).take 3 }
  if 9 < data.length then
    Except.ok { t1 with GPB := data.getD 9 0, keyB := (data.drop 10).take 6,
                        status := status.OK }
  else Except.error t1

/-- Data of an entire sector (lines 117-121). -/
structure sector where
  blocks : List block
  trailer : trailer
  status : status
  deriving DecidableEq, Repr

def sector.init : sector :=
  { blocks := List.replicate MIFARE_1K_blocks_per_sector block.init,
    trailer := trailer.init, status := status.NOINIT }

/-- Full dump object (lines 123-126, `dumpMifare_1k.__init__`). -/
structure dumpMifare_1k where
  head : head
  sectors : List sector
  status : status
  deriving DecidableEq, Repr

def dumpMifare_1k.init : dumpMifare_1k :=
  { head := head.init, sectors := List.replicate MIFARE_1K_total_sectors sector.init,
    status := status.NOINIT }

def sector.getBlock (s : sector) (i : Nat) : block := s.blocks.getD i block.init

def sector.setBlock (s : sector) (i : Nat) (b : block) : sector :=
  { s with blocks := s.blocks.set i b }

def dumpMifare_1k.getSector (d : dumpMifare_1k) (i : Nat) : sector :=
  d.sectors.getD i sector.init

def dumpMifare_1k.setSector (d : dumpMifare_1k) (i : Nat) (s : sector) : dumpMifare_1k :=
  { d with sectors := d.sectors.set i s }

/-! ## Transport and doTransmit (do_card.py lines 129-136) -/

/-- Outcome of one call to `connection.transmit(bytes)`: either the triple
`(response, sw1, sw2)`, or a raised transport exception. -/
inductive transmitOutcome
  | ok (response : List Nat) (sw1 sw2 : Nat)
  | exn

/-- A transport oracle: the result of `connection.transmit` as a function of
the call index (how many transmits happened before) and the frame sent. -/
abbrev Transport := Nat → List Nat → transmitOutcome

/-- Return value of `doTransmit` (lines 129-136).  On a `0x9000` status word
the source returns the *pair* `True, response`; on every other path it
returns the *bare* boolean `False` — a single value, not a pair.  The two
shapes are distinct constructors so that call sites which unpack two values
(line 175) can be modelled faithfully. -/
inductive doTransmitResult
  | pair (response : List Nat)
  | falseOnly
  deriving DecidableEq, Repr

/-- Embedding of `doTransmit(connection, Key)` (lines 129-136).  A transport
exception is caught inside the function (printed and fallen through), so
`doTransmit` itself never raises. -/
def doTransmit (tr : Transport) (callIdx : Nat) (Key : List Nat) : doTransmitResult :=
  match tr callIdx Key with
  | transmitOutcome.ok response sw1 sw2 =>
      if sw1 = 0x90 ∧ sw2 = 0x00 then doTransmitResult.pair response
      else doTransmitResult.falseOnly
  | transmitOutcome.exn => doTransmitResult.falseOnly

/-! ## The dump engine (do_card.py lines 157-194, `dump_mifare_1k`) -/

/-- Command frames sent by `dump_mifare_1k` (lines 163, 168, 175). -/
def loadKeyFrame (keyA : List Nat) : List Nat :=
  [0xFF, 0x82, 0x00, 0x00, 0x06] ++ keyA

def authFrame (blockAddress : Nat) : List Nat :=
  [0xFF, 0x86, 0x00, 0x00, 0x05, 0x01, 0x00, blockAddress, 0x60, 0x00]

def readFrame (blockAddress : Nat) : List Nat :=
  [0xFF, 0xB0, 0x00, blockAddress, 0x10]

/-- State threaded through the scan: the dump being mutated, the number of
`connection.transmit` calls made so far, and the list of frames sent. -/
structure scanState where
  dump : dumpMifare_1k
  callIdx : Nat
  trace : List (List Nat)
  deriving DecidableEq, Repr

/-- Book-keeping of one `connection.transmit` call: the frame goes into the
trace and the call counter advances.  Paired with `doTransmit tr st.callIdx
frame` this models one `doTransmit(connection, ...)` call site. -/
def bumpState (frame : List Nat) (st : scanState) : scanState :=
  { st with callIdx := st.callIdx + 1, trace := st.trace ++ [frame] }

def setSectorStatus (st : scanState) (i : Nat) (s : status) : scanState :=
  { st with dump := st.dump.setSector i { st.dump.getSector i with status := s } }

/-- One iteration of the inner block loop (lines 175-180): transmit the read
frame; on the returned pair `readOk, data` store the block (`block.data =
data; block.status = OK`) and, for the 4th block, feed it to
`processLastBlock` (whose `IndexError`, if any, escapes as `.error`).  When
`doTransmit` returns the bare `False`, the unpacking `readOk, data = False`
raises `TypeError` *after* the frame was transmitted — the `.error` carries
the state with the frame already in the trace. -/
def readBlockStep (tr : Transport) (iSector nBlock0 iBlock : Nat) (st : scanState) :
    Except scanState scanState :=
  let st1 := bumpState (readFrame (nBlock0 + iBlock)) st
  match doTransmit tr st.callIdx (readFrame (nBlock0 + iBlock)) with
  | doTransmitResult.pair data =>
      let s := st1.dump.getSector iSector
      let s1 := s.setBlock iBlock { data := data, status := status.OK }
      if iBlock + 1 = MIFARE_1K_blocks_per_sector then
        match s1.trailer.processLastBlock data with
        | Except.ok t =>
            Except.ok { st1 with dump := st1.dump.setSector iSector { s1 with trailer := t } }
        | Except.error t =>
            Except.error { st1 with dump := st1.dump.setSector iSector { s1 with trailer := t } }
      else Except.ok { st1 with dump := st1.dump.setSector iSector s1 }
  | doTransmitResult.falseOnly => Except.error st1

/-- Embedding of the inner block loop (lines 174-184):
`for iBlock, block in enumerate(sector.blocks): ...`.  `rem` is the number of
blocks still to visit (the length of `sector.blocks`, 4 for any well-formed
dump, at entry).  The source's `else: failCount += 1; block.status =
READ_ERROR` branch (lines 181-184) is unreachable — when the unpack in
`readBlockStep` succeeds, `readOk` is always `True` — so `failCount` is
returned unchanged. -/
def readBlocksLoop (tr : Transport) (iSector nBlock0 : Nat) :
    Nat → Nat → Nat → scanState → Except scanState (Nat × scanState)
  | 0, _, failCount, st => Except.ok (failCount, st)
  | rem + 1, iBlock, failCount, st =>
      match readBlockStep tr iSector nBlock0 iBlock st with
      | Except.error st' => Except.error st'
      | Except.ok st1 => readBlocksLoop tr iSector nBlock0 rem (iBlock + 1) failCount st1

/-- Embedding of one iteration of the sector loop (lines 160-186).  The
running `totalFailCount` of the source is not modelled: it is written but
never read.  `if not doTransmit(...)` takes the `KEY_ERROR` / `AUTH_ERROR`
branch exactly when the bare `False` came back (a returned pair is a
non-empty tuple and hence truthy). -/
def processSector (tr : Transport) (keyA : List Nat) (iSector : Nat) (st : scanState) :
    Except scanState scanState :=
  let nBlock0 := iSector * 4
  let st1 := bumpState (loadKeyFrame keyA) st
  match doTransmit tr st.callIdx (loadKeyFrame keyA) with
  | doTransmitResult.falseOnly => Except.ok (setSectorStatus st1 iSector status.KEY_ERROR)
  | doTransmitResult.pair _ =>
      let st2 := bumpState (authFrame nBlock0) st1
      match doTransmit tr st1.callIdx (authFrame nBlock0) with
      | doTransmitResult.falseOnly => Except.ok (setSectorStatus st2 iSector status.AUTH_ERROR)
      | doTransmitResult.pair _ =>
          let st3 := setSectorStatus st2 iSector status.OK
          match readBlocksLoop tr iSector nBlock0
                  ((st3.dump.getSector iSector).blocks.length) 0 0 st3 with
          | Except.error st' => Except.error st'
          | Except.ok (failCount, st4) =>
              Except.ok (if failCount ≠ 0 then setSectorStatus st4 iSector status.READ_ERROR else st4)

/-- Embedding of the outer `for iSector, sector in enumerate(dump.sectors)`
loop (lines 160-188) with the trailing `if firstSectorOnly: break`. -/
def scanSectors (tr : Transport) (keyA : List Nat) (firstSectorOnly : Bool) :
    Nat → Nat → scanState → Except scanState scanState
  | 0, _, st => Except.ok st
  | rem + 1, iSector, st =>
      match processSector tr keyA iSector st with
      | Except.error st' => Except.error st'
      | Except.ok st1 =>
          if firstSectorOnly then Except.ok st1
          else scanSectors tr keyA firstSectorOnly rem (iSector + 1) st1

/-- Embedding of `dump_mifare_1k(dump, connection, firstSectorOnly, keyA)`
(lines 157-194).  Returns the dump after the run together with the list of
frames transmitted.  The `try`/`except` wraps the whole body: any exception
(modelled: the `TypeError` from unpacking a bare `False`, the `IndexError`
inside `processLastBlock` or `head.read`) is caught and sets the overall
status to `READ_ERROR`, keeping every mutation made before the raise. -/
def dump_mifare_1k (tr : Transport) (dump : dumpMifare_1k)
    (firstSectorOnly : Bool) (keyA : List Nat) : dumpMifare_1k × List (List Nat) :=
  let st0 : scanState := { dump := dump, callIdx := 0, trace := [] }
  match scanSectors tr keyA firstSectorOnly dump.sectors.length 0 st0 with
  | Except.error st => ({ st.dump with status := status.READ_ERROR }, st.trace)
  | Except.ok st =>
      match st.dump.head.read ((st.dump.getSector 0).getBlock 0) with
      | Except.ok h => ({ st.dump with head := h }, st.trace)
      | Except.error h => ({ st.dump with head := h, status := status.READ_ERROR }, st.trace)

/-! ## Specification-side predicates -/

/-- A frame has one of the three shapes the spec allows `dump_mifare_1k` to
transmit: a load-key, an authenticate-with-key-A, or a read-block frame. -/
def specFrame (keyA : List Nat) (f : List Nat) : Prop :=
  f = loadKeyFrame keyA ∨ (∃ a, f = authFrame a) ∨ (∃ a, f = readFrame a)

/-- A transport on which every APDU exchange succeeds: status word `0x9000`
and a 16-byte response on every call. -/
def allOk16 (tr : Transport) : Prop :=
  ∀ k f, ∃ resp, tr k f = transmitOutcome.ok resp 0x90 0x00 ∧ resp.length = 16

/-! ## Concrete transports used as witnesses and failing inputs -/

/-- Transport on which every exchange succeeds with a 16-byte zero response. -/
def trAllOk : Transport := fun _ _ => transmitOutcome.ok (List.replicate 16 0) 0x90 0x00

/-- Transport on which every exchange is rejected with status word `0x6300`. -/
def trFail63 : Transport := fun _ _ => transmitOutcome.ok [] 0x63 0x00

/-- Transport on which every `transmit` call raises a transport exception. -/
def trExn : Transport := fun _ _ => transmitOutcome.exn

/-- Transport realising the spec's Scenario C for sector 0: load-key and
authenticate succeed, the reads of blocks 0, 1 and 3 succeed with
distinguishable 16-byte data, and the read of block 2 fails with status word
`0x6300`. -/
def trScenC : Transport := fun _ f =>
  if f = readFrame 2 then transmitOutcome.ok [] 0x63 0x00
  else if f = readFrame 0 then transmitOutcome.ok (List.replicate 16 0x11) 0x90 0x00
  else if f = readFrame 1 then transmitOutcome.ok (List.replicate 16 0x22) 0x90 0x00
  else if f = readFrame 3 then transmitOutcome.ok (List.replicate 16 0x33) 0x90 0x00
  else transmitOutcome.ok [] 0x90 0x00

/-- The run of `dump_mifare_1k` on the Scenario C transport, starting from a
fresh dump, first sector only, with the default key. -/
def scenCRun : dumpMifare_1k × List (List Nat) :=
  dump_mifare_1k trScenC dumpMifare_1k.init true MIFARE_1K_default_key

/-- The 16-byte trailer content of the spec's Scenario A:
`[00×6, FF,07,80, 69, 12,34,56,78,9A,BC]`. -/
def scenAData : List Nat :=
  [0x00, 0x00, 0x00, 0x00, 0x00, 0x00, 0xFF, 0x07, 0x80, 0x69,
   0x12, 0x34, 0x56, 0x78, 0x9A, 0xBC]

/-! ## WriteEngine request validation (modelled from the spec)

The write path (`WriteEngine` / `do_comm`, `do_prompt` modules) is code of
this repository that is not under `src/` — only its tests are present — so
it is modelled from the spec's words (sections 3, 4.5 and 7). -/

/-- Modelled from the spec: the address scope of a `WriteRequest`
(spec section 3): one block, one sector's data blocks, or the whole card's
data blocks. -/
inductive addressScope
  | Block
  | Sector
  | EntireCard
  deriving DecidableEq, Repr

/-- Modelled from the spec: a `WriteRequest` (spec section 3).  The data
source is irrelevant to address resolution and payload-length validation and
is not modelled. -/
structure WriteRequest where
  addressScope : addressScope
  sectorIndex : Nat
  blockIndexWithinSector : Nat
  payload : List Nat
  deriving DecidableEq, Repr

/-- Modelled from the spec: the `ValidationError` cases relevant to write
requests (spec section 7): a trailer block targeted by the generic write, or
a payload whose length does not match the resolved scope. -/
inductive writeRejection
  | trailerBlockTarget
  | payloadLength
  deriving DecidableEq, Repr

/-- Modelled from the spec: `ApduCodec.writeBlock` frame
`[0xFF,0xD6,0x00,blockAddress,0x10] + data` (spec section 4.1). -/
def writeBlockFrame (blockAddress : Nat) (data : List Nat) : List Nat :=
  [0xFF, 0xD6, 0x00, blockAddress, 0x10] ++ data

/-- Modelled from the spec: resolve the concrete list of target block
addresses from the address scope (spec section 4.5).  `Block` yields exactly
one address and rejects block-within-sector index 3 (the trailer) as an
illegal target; `Sector` yields the 3 non-trailer blocks of the sector;
`EntireCard` yields the 3 non-trailer blocks of each of the 16 sectors. -/
def resolveTargets (r : WriteRequest) : Except writeRejection (List Nat) :=
  match r.addressScope with
  | addressScope.Block =>
      if r.blockIndexWithinSector = 3 then Except.error writeRejection.trailerBlockTarget
      else Except.ok [r.sectorIndex * 4 + r.blockIndexWithinSector]
  | addressScope.Sector =>
      Except.ok ((List.range 3).map (fun j => r.sectorIndex * 4 + j))
  | addressScope.EntireCard =>
      Except.ok ((List.range 16).flatMap (fun s => (List.range 3).map (fun j => s * 4 + j)))

/-- Modelled from the spec: the validate-then-transmit skeleton of
`WriteEngine.write` (spec sections 4.5 and 7).  Targets are resolved and the
payload length is checked against `16 * blockCount` *before* any
transmission; on a `ValidationError` the engine is rejected with an empty
transmit trace (second component: the write frames actually sent to the
card).  The per-sector re-authentication detail is irrelevant to validation
and is not modelled; the transmitted write frames are listed in target
order. -/
def writeEngineRun (r : WriteRequest) :
    Except writeRejection (List Nat) × List (List Nat) :=
  match resolveTargets r with
  | Except.error e => (Except.error e, [])
  | Except.ok targets =>
      if r.payload.length = 16 * targets.length then
        (Except.ok targets,
         (List.range targets.length).map
           (fun i => writeBlockFrame (targets.getD i 0) ((r.payload.drop (16 * i)).take 16)))
      else (Except.error writeRejection.payloadLength, [])

/-- Core preservation relation between scan states: the overall dump status,
the head and every trailer's `keyA` are unchanged by the step. -/
def preservesCore (st st' : scanState) : Prop :=
  st'.dump.status = st.dump.status ∧ st'.dump.head = st.dump.head ∧
  ∀ j, ((st'.dump.getSector j).trailer).keyA = ((st.dump.getSector j).trailer).keyA

/-- Invariant used for the all-exchanges-succeed analysis: whenever block 0 of
sector 0 has been marked `OK`, its data is a full 16-byte read. -/
def block0Inv (st : scanState) : Prop :=
  ((st.dump.getSector 0).getBlock 0).status = status.OK →
    ((st.dump.getSector 0).getBlock 0).data.length = 16

/-- Post-relation of the inner block loop: core fields preserved, sectors
other than the scanned one untouched, and only read frames added to the
trace. -/
def loopPost (iS : Nat) (st st' : scanState) : Prop :=
  preservesCore st st' ∧
  (∀ j, j ≠ iS → st'.dump.getSector j = st.dump.getSector j) ∧
  (∀ f ∈ st'.trace, f ∈ st.trace ∨ ∃ a, f = readFrame a)

/-- Post-relation of one sector iteration: core fields preserved, other
sectors untouched, and only spec-shaped frames added to the trace. -/
def sectorPost (keyA : List Nat) (iS : Nat) (st st' : scanState) : Prop :=
  preservesCore st st' ∧
  (∀ j, j ≠ iS → st'.dump.getSector j = st.dump.getSector j) ∧
  (∀ f ∈ st'.trace, f ∈ st.trace ∨ specFrame keyA f)

/-- Post-relation of the whole sector scan: core fields preserved and only
spec-shaped frames added to the trace. -/
def scanPost (keyA : List Nat) (st st' : scanState) : Prop :=
  preservesCore st st' ∧
  (∀ f ∈ st'.trace, f ∈ st.trace ∨ specFrame keyA f)

/-! ## Helper lemmas on lists and the model -/

theorem getD_set_self {α : Type} (l : List α) (i : Nat) (a d : α) (h : i < l.length) :
    (l.set i a).getD i d = a := by
  simp [List.getD_eq_getElem?_getD, List.getElem?_set, h]

theorem getD_set_ne {α : Type} (l : List α) (i j : Nat) (a d : α) (h : i ≠ j) :
    (l.set i a).getD j d = l.getD j d := by
  simp [List.getD_eq_getElem?_getD, List.getElem?_set, h]

theorem mem_append_singleton {α : Type} {f x : α} {l : List α} :
    f ∈ l ++ [x] ↔ f ∈ l ∨ f = x := by
  simp

theorem getSector_setSector_self (d : dumpMifare_1k) (i : Nat) (s : sector)
    (h : i < d.sectors.length) : (d.setSector i s).getSector i = s := by
  simp [dumpMifare_1k.getSector, dumpMifare_1k.setSector, getD_set_self, h]

theorem getSector_setSector_ne (d : dumpMifare_1k) (i j : Nat) (s : sector)
    (h : i ≠ j) : (d.setSector i s).getSector j = d.getSector j := by
  simp [dumpMifare_1k.getSector, dumpMifare_1k.setSector, getD_set_ne, h]

/-- Setting a sector either lands (index in range) or is a no-op, so any
sector-level field that the new value copies from the old sector at the same
index is preserved at every index. -/
theorem getSector_setSector_trailer_keyA (d : dumpMifare_1k) (i : Nat) (s : sector)
    (hk : s.trailer.keyA = (d.getSector i).trailer.keyA) (j : Nat) :
    ((d.setSector i s).getSector j).trailer.keyA = ((d.getSector j).trailer).keyA := by
  by_cases hij : i = j
  · subst hij
    by_cases hlen : i < d.sectors.length
    · rw [getSector_setSector_self d i s hlen, hk]
    · have : d.sectors.set i s = d.sectors := List.set_eq_of_length_le (by omega)
      simp [dumpMifare_1k.setSector, dumpMifare_1k.getSector, this]
  · rw [getSector_setSector_ne d i j s hij]

theorem getBlock_setBlock_ne (s : sector) (i j : Nat) (b : block) (h : i ≠ j) :
    (s.setBlock i b).getBlock j = s.getBlock j := by
  simp [sector.getBlock, sector.setBlock, getD_set_ne, h]

theorem processLastBlock_keyA_ok (t t' : trailer) (data : List Nat)
    (h : t.processLastBlock data = Except.ok t') : t'.keyA = t.keyA := by
  unfold trailer.processLastBlock at h
  split at h
  · cases h; rfl
  · cases h

theorem processLastBlock_keyA_error (t t' : trailer) (data : List Nat)
    (h : t.processLastBlock data = Except.error t') : t'.keyA = t.keyA := by
  unfold trailer.processLastBlock at h
  split at h
  · cases h
  · cases h; rfl

/-- Behaviour of `processLastBlock` on a full 16-byte block, shared by the
claim theorems: every field is assigned from the fixed layout and `keyA` is
copied unchanged. -/
theorem processLastBlock_eq_of_len16 (t : trailer) (data : List Nat)
    (h : data.length = 16) :
    t.processLastBlock data =
      Except.ok { keyA := t.keyA, keyB := (data.drop 10).take 6,
                  accessBits := (data.drop 6).take 3, GPB := data.getD 9 0,
                  status := status.OK } := by
  unfold trailer.processLastBlock
  rw [if_pos (by omega)]

/-! ## Preservation machinery -/

theorem preservesCore_refl (st : scanState) : preservesCore st st :=
  ⟨rfl, rfl, fun _ => rfl⟩

theorem preservesCore_trans {s1 s2 s3 : scanState}
    (h12 : preservesCore s1 s2) (h23 : preservesCore s2 s3) : preservesCore s1 s3 :=
  ⟨h23.1.trans h12.1, h23.2.1.trans h12.2.1, fun j => (h23.2.2 j).trans (h12.2.2 j)⟩

/-- Replacing sector `i` with a sector whose trailer `keyA` agrees with the
old one (possibly also bumping the trace) satisfies the core preservation. -/
theorem preservesCore_setSector (st : scanState) (st1 : scanState) (i : Nat) (s : sector)
    (hdump : st1.dump = st.dump)
    (hk : s.trailer.keyA = (st.dump.getSector i).trailer.keyA) :
    preservesCore st { st1 with dump := st1.dump.setSector i s } := by
  refine ⟨by simp [dumpMifare_1k.setSector, hdump], by simp [dumpMifare_1k.setSector, hdump], fun j => ?_⟩
  rw [hdump]
  exact getSector_setSector_trailer_keyA _ i _ hk j

theorem loopPost_refl (iS : Nat) (st : scanState) : loopPost iS st st :=
  ⟨preservesCore_refl st, fun _ _ => rfl, fun _ hf => Or.inl hf⟩

theorem loopPost_trans {iS : Nat} {s1 s2 s3 : scanState}
    (h12 : loopPost iS s1 s2) (h23 : loopPost iS s2 s3) : loopPost iS s1 s3 := by
  refine ⟨preservesCore_trans h12.1 h23.1,
          fun j hj => (h23.2.1 j hj).trans (h12.2.1 j hj), fun f hf => ?_⟩
  rcases h23.2.2 f hf with hmem | hread
  · exact h12.2.2 f hmem
  · exact Or.inr hread

/-- One iteration of the block loop (a read frame transmitted, then sector
`iS` replaced with a same-`keyA`-trailer update) satisfies `loopPost`. -/
theorem loopPost_step (iS : Nat) (st : scanState) (a : Nat) (s : sector)
    (hk : s.trailer.keyA = (st.dump.getSector iS).trailer.keyA) :
    loopPost iS st
      { bumpState (readFrame a) st with dump := (bumpState (readFrame a) st).dump.setSector iS s } := by
  refine ⟨preservesCore_setSector st _ iS s rfl hk,
          fun j hj => getSector_setSector_ne _ iS j s (fun e => hj e.symm) |>.trans rfl, fun f hf => ?_⟩
  simp only [bumpState] at hf
  rcases mem_append_singleton.mp hf with hmem | hfr
  · exact Or.inl hmem
  · exact Or.inr ⟨a, hfr⟩

/-- A bare transmit (frame recorded, nothing else changed) satisfies
`loopPost` when the frame is a read frame. -/
theorem loopPost_bump_read (iS : Nat) (st : scanState) (a : Nat) :
    loopPost iS st (bumpState (readFrame a) st) := by
  refine ⟨⟨rfl, rfl, fun _ => rfl⟩, fun _ _ => rfl, fun f hf => ?_⟩
  simp only [bumpState] at hf
  rcases mem_append_singleton.mp hf with hmem | hfr
  · exact Or.inl hmem
  · exact Or.inr ⟨a, hfr⟩

/-- Either outcome of one block-loop iteration satisfies `loopPost`. -/
theorem readBlockStep_post (tr : Transport) (iS nB0 iBlock : Nat) (st : scanState) :
    (∀ st', readBlockStep tr iS nB0 iBlock st = Except.error st' → loopPost iS st st') ∧
    (∀ st', readBlockStep tr iS nB0 iBlock st = Except.ok st' → loopPost iS st st') := by
  constructor
  · intro st' h
    unfold readBlockStep at h
    simp only [bumpState] at h
    split at h
    · split at h
      · split at h
        · cases h
        · cases h
          rename_i data hdt hlast t hplb
          exact loopPost_step iS st (nB0 + iBlock) _ (processLastBlock_keyA_error _ _ _ hplb)
      · cases h
    · cases h
      exact loopPost_bump_read iS st (nB0 + iBlock)
  · intro st' h
    unfold readBlockStep at h
    simp only [bumpState] at h
    split at h
    · split at h
      · split at h
        · cases h
          rename_i data hdt hlast t hplb
          exact loopPost_step iS st (nB0 + iBlock) _ (processLastBlock_keyA_ok _ _ _ hplb)
        · cases h
      · cases h
        exact loopPost_step iS st (nB0 + iBlock) _ rfl
    · cases h

/-- Unfolding equation of `readBlocksLoop` in the step case. -/
theorem readBlocksLoop_succ (tr : Transport) (iS nB0 rem iBlock fc : Nat) (st : scanState) :
    readBlocksLoop tr iS nB0 (rem + 1) iBlock fc st =
      match readBlockStep tr iS nB0 iBlock st with
      | Except.error st' => Except.error st'
      | Except.ok st1 => readBlocksLoop tr iS nB0 rem (iBlock + 1) fc st1 := rfl

/-- Unfolding equation of `readBlocksLoop` at zero remaining blocks. -/
theorem readBlocksLoop_zero (tr : Transport) (iS nB0 iBlock fc : Nat) (st : scanState) :
    readBlocksLoop tr iS nB0 0 iBlock fc st = Except.ok (fc, st) := rfl

/-- Both outcomes of the inner block loop satisfy `loopPost`. -/
theorem readBlocksLoop_core (tr : Transport) (iS nB0 : Nat) (rem : Nat) :
    ∀ (iBlock fc : Nat) (st : scanState),
      (∀ st', readBlocksLoop tr iS nB0 rem iBlock fc st = Except.error st' → loopPost iS st st') ∧
      (∀ fc' st', readBlocksLoop tr iS nB0 rem iBlock fc st = Except.ok (fc', st') → loopPost iS st st') := by
  induction rem with
  | zero =>
      intro iBlock fc st
      constructor
      · intro st' h
        rw [readBlocksLoop_zero] at h
        cases h
      · intro fc' st' h
        rw [readBlocksLoop_zero] at h
        cases h
        exact loopPost_refl iS st
  | succ rem ih =>
      intro iBlock fc st
      constructor
      · intro st' h
        rw [readBlocksLoop_succ] at h
        cases hstep : readBlockStep tr iS nB0 iBlock st with
        | error st1 =>
            rw [hstep] at h
            have h2 : (Except.error st1 : Except scanState (Nat × scanState)) = Except.error st' := h
            cases h2
            exact (readBlockStep_post tr iS nB0 iBlock st).1 _ hstep
        | ok st1 =>
            rw [hstep] at h
            have h2 : readBlocksLoop tr iS nB0 rem (iBlock + 1) fc st1 = Except.error st' := h
            exact loopPost_trans ((readBlockStep_post tr iS nB0 iBlock st).2 _ hstep)
              ((ih _ _ _).1 st' h2)
      · intro fc' st' h
        rw [readBlocksLoop_succ] at h
        cases hstep : readBlockStep tr iS nB0 iBlock st with
        | error st1 =>
            rw [hstep] at h
            have h2 : (Except.error st1 : Except scanState (Nat × scanState)) = Except.ok (fc', st') := h
            cases h2
        | ok st1 =>
            rw [hstep] at h
            have h2 : readBlocksLoop tr iS nB0 rem (iBlock + 1) fc st1 = Except.ok (fc', st') := h
            exact loopPost_trans ((readBlockStep_post tr iS nB0 iBlock st).2 _ hstep)
              ((ih _ _ _).2 fc' st' h2)

/-! ## Sector- and scan-level preservation -/

theorem sectorPost_trans {keyA : List Nat} {iS : Nat} {s1 s2 s3 : scanState}
    (h12 : sectorPost keyA iS s1 s2) (h23 : sectorPost keyA iS s2 s3) :
    sectorPost keyA iS s1 s3 := by
  refine ⟨preservesCore_trans h12.1 h23.1,
          fun j hj => (h23.2.1 j hj).trans (h12.2.1 j hj), fun f hf => ?_⟩
  rcases h23.2.2 f hf with hmem | hspec
  · exact h12.2.2 f hmem
  · exact Or.inr hspec

theorem sectorPost_of_loopPost {keyA : List Nat} {iS : Nat} {st st' : scanState}
    (h : loopPost iS st st') : sectorPost keyA iS st st' := by
  refine ⟨h.1, h.2.1, fun f hf => ?_⟩
  rcases h.2.2 f hf with hmem | ⟨a, ha⟩
  · exact Or.inl hmem
  · exact Or.inr (Or.inr (Or.inr ⟨a, ha⟩))

theorem sectorPost_setSectorStatus (keyA : List Nat) (iS : Nat) (st : scanState) (v : status) :
    sectorPost keyA iS st (setSectorStatus st iS v) := by
  refine ⟨preservesCore_setSector st st iS _ rfl rfl,
          fun j hj => getSector_setSector_ne _ iS j _ (fun e => hj e.symm), fun f hf => Or.inl hf⟩

theorem sectorPost_bump (keyA : List Nat) (iS : Nat) (st : scanState) (frame : List Nat)
    (hf : specFrame keyA frame) : sectorPost keyA iS st (bumpState frame st) := by
  refine ⟨⟨rfl, rfl, fun _ => rfl⟩, fun _ _ => rfl, fun f hmem => ?_⟩
  simp only [bumpState] at hmem
  rcases mem_append_singleton.mp hmem with hin | hfr
  · exact Or.inl hin
  · exact Or.inr (hfr ▸ hf)

/-- Either outcome of one sector iteration satisfies `sectorPost`. -/
theorem processSector_core (tr : Transport) (keyA : List Nat) (iS : Nat) (st : scanState) :
    (∀ st', processSector tr keyA iS st = Except.error st' → sectorPost keyA iS st st') ∧
    (∀ st', processSector tr keyA iS st = Except.ok st' → sectorPost keyA iS st st') := by
  have hload : specFrame keyA (loadKeyFrame keyA) := Or.inl rfl
  have hauth : specFrame keyA (authFrame (iS * 4)) := Or.inr (Or.inl ⟨iS * 4, rfl⟩)
  constructor
  · intro st' h
    unfold processSector at h
    simp only at h
    split at h
    · cases h
    · split at h
      · cases h
      · split at h
        · rename_i st1 hloop
          cases h
          refine sectorPost_trans (sectorPost_trans (sectorPost_trans
            (sectorPost_bump keyA iS st _ hload) (sectorPost_bump keyA iS _ _ hauth))
            (sectorPost_setSectorStatus keyA iS _ status.OK)) ?_
          exact sectorPost_of_loopPost
            (((readBlocksLoop_core tr iS (iS * 4) _) _ _ _).1 _ hloop)
        · cases h
  · intro st' h
    unfold processSector at h
    simp only at h
    split at h
    · cases h
      exact sectorPost_trans (sectorPost_bump keyA iS st _ hload)
        (sectorPost_setSectorStatus keyA iS _ status.KEY_ERROR)
    · split at h
      · cases h
        exact sectorPost_trans (sectorPost_trans (sectorPost_bump keyA iS st _ hload)
          (sectorPost_bump keyA iS _ _ hauth)) (sectorPost_setSectorStatus keyA iS _ status.AUTH_ERROR)
      · split at h
        · cases h
        · rename_i fc st4 hloop
          cases h
          refine sectorPost_trans (sectorPost_trans (sectorPost_trans
            (sectorPost_bump keyA iS st _ hload) (sectorPost_bump keyA iS _ _ hauth))
            (sectorPost_setSectorStatus keyA iS _ status.OK)) ?_
          have hto4 : sectorPost keyA iS _ _ := sectorPost_of_loopPost
            (((readBlocksLoop_core tr iS (iS * 4) _) _ _ _).2 _ _ hloop)
          by_cases hfc : fc ≠ 0
          · rw [if_pos hfc]
            exact sectorPost_trans hto4 (sectorPost_setSectorStatus keyA iS _ status.READ_ERROR)
          · rw [if_neg hfc]
            exact hto4

theorem scanPost_refl (keyA : List Nat) (st : scanState) : scanPost keyA st st :=
  ⟨preservesCore_refl st, fun _ hf => Or.inl hf⟩

theorem scanPost_trans {keyA : List Nat} {s1 s2 s3 : scanState}
    (h12 : scanPost keyA s1 s2) (h23 : scanPost keyA s2 s3) : scanPost keyA s1 s3 := by
  refine ⟨preservesCore_trans h12.1 h23.1, fun f hf => ?_⟩
  rcases h23.2 f hf with hmem | hspec
  · exact h12.2 f hmem
  · exact Or.inr hspec

theorem scanPost_of_sectorPost {keyA : List Nat} {iS : Nat} {st st' : scanState}
    (h : sectorPost keyA iS st st') : scanPost keyA st st' := ⟨h.1, h.2.2⟩

/-- Unfolding equation of `scanSectors` in the step case. -/
theorem scanSectors_succ (tr : Transport) (keyA : List Nat) (fsOnly : Bool)
    (rem iSector : Nat) (st : scanState) :
    scanSectors tr keyA fsOnly (rem + 1) iSector st =
      match processSector tr keyA iSector st with
      | Except.error st' => Except.error st'
      | Except.ok st1 =>
          if fsOnly then Except.ok st1 else scanSectors tr keyA fsOnly rem (iSector + 1) st1 := rfl

/-- Unfolding equation of `scanSectors` at zero remaining sectors. -/
theorem scanSectors_zero (tr : Transport) (keyA : List Nat) (fsOnly : Bool)
    (iSector : Nat) (st : scanState) :
    scanSectors tr keyA fsOnly 0 iSector st = Except.ok st := rfl

/-- Both outcomes of the whole sector scan satisfy `scanPost`. -/
theorem scanSectors_core (tr : Transport) (keyA : List Nat) (fsOnly : Bool) (rem : Nat) :
    ∀ (iSector : Nat) (st : scanState),
      (∀ st', scanSectors tr keyA fsOnly rem iSector st = Except.error st' → scanPost keyA st st') ∧
      (∀ st', scanSectors tr keyA fsOnly rem iSector st = Except.ok st' → scanPost keyA st st') := by
  induction rem with
  | zero =>
      intro iSector st
      constructor
      · intro st' h
        rw [scanSectors_zero] at h
        cases h
      · intro st' h
        rw [scanSectors_zero] at h
        cases h
        exact scanPost_refl keyA st
  | succ rem ih =>
      intro iSector st
      constructor
      · intro st' h
        rw [scanSectors_succ] at h
        cases hps : processSector tr keyA iSector st with
        | error st1 =>
            rw [hps] at h
            have h2 : (Except.error st1 : Except scanState scanState) = Except.error st' := h
            cases h2
            exact scanPost_of_sectorPost ((processSector_core tr keyA iSector st).1 _ hps)
        | ok st1 =>
            rw [hps] at h
            have h2 : (if fsOnly then Except.ok st1
                else scanSectors tr keyA fsOnly rem (iSector + 1) st1) = Except.error st' := h
            have hbase := scanPost_of_sectorPost ((processSector_core tr keyA iSector st).2 _ hps)
            cases fsOnly with
            | true => cases h2
            | false =>
                rw [if_neg (by simp)] at h2
                exact scanPost_trans hbase ((ih _ _).1 st' h2)
      · intro st' h
        rw [scanSectors_succ] at h
        cases hps : processSector tr keyA iSector st with
        | error st1 =>
            rw [hps] at h
            have h2 : (Except.error st1 : Except scanState scanState) = Except.ok st' := h
            cases h2
        | ok st1 =>
            rw [hps] at h
            have h2 : (if fsOnly then Except.ok st1
                else scanSectors tr keyA fsOnly rem (iSector + 1) st1) = Except.ok st' := h
            have hbase := scanPost_of_sectorPost ((processSector_core tr keyA iSector st).2 _ hps)
            cases fsOnly with
            | true =>
                rw [if_pos rfl] at h2
                cases h2
                exact hbase
            | false =>
                rw [if_neg (by simp)] at h2
                exact scanPost_trans hbase ((ih _ _).2 st' h2)

/-! ## Behaviour when every exchange succeeds -/

theorem doTransmit_allOk16 {tr : Transport} (h : allOk16 tr) (k : Nat) (f : List Nat) :
    ∃ resp, doTransmit tr k f = doTransmitResult.pair resp ∧ resp.length = 16 := by
  obtain ⟨resp, hresp, hlen⟩ := h k f
  exact ⟨resp, by simp [doTransmit, hresp], hlen⟩

/-- Replacing a sector without touching its block list leaves every block of
every sector unchanged. -/
theorem blocks_setSector (d : dumpMifare_1k) (i : Nat) (s : sector)
    (hs : s.blocks = (d.getSector i).blocks) (j : Nat) :
    ((d.setSector i s).getSector j).blocks = (d.getSector j).blocks := by
  by_cases hij : i = j
  · subst hij
    by_cases hlen : i < d.sectors.length
    · rw [getSector_setSector_self d i s hlen, hs]
    · have hnoop : d.sectors.set i s = d.sectors := List.set_eq_of_length_le (by omega)
      simp [dumpMifare_1k.setSector, dumpMifare_1k.getSector, hnoop]
  · rw [getSector_setSector_ne d i j s hij]

theorem block0Inv_blocksEq {st st' : scanState}
    (h : (st'.dump.getSector 0).blocks = (st.dump.getSector 0).blocks)
    (hinv : block0Inv st) : block0Inv st' := by
  have hgb : (st'.dump.getSector 0).getBlock 0 = (st.dump.getSector 0).getBlock 0 := by
    unfold sector.getBlock
    rw [h]
  intro hOK
  rw [hgb] at hOK
  rw [hgb]
  exact hinv hOK

theorem block0Inv_setSectorStatus {st : scanState} (hinv : block0Inv st) (i : Nat) (v : status) :
    block0Inv (setSectorStatus st i v) :=
  block0Inv_blocksEq
    (blocks_setSector st.dump i { st.dump.getSector i with status := v } rfl 0) hinv

/-- Storing a 16-byte `OK` block (and possibly replacing the trailer)
preserves the block-0 invariant. -/
theorem block0Inv_setBlock {st st1 : scanState} (iS iBlock : Nat) (b : block) (s : sector)
    (hdump : st1.dump = st.dump) (hinv : block0Inv st)
    (hb : b.data.length = 16)
    (hs : s.blocks = ((st.dump.getSector iS).setBlock iBlock b).blocks) :
    block0Inv { st1 with dump := st1.dump.setSector iS s } := by
  intro hOK
  simp only [hdump] at hOK ⊢
  by_cases hiS : iS = 0
  · subst hiS
    by_cases hlen : 0 < st.dump.sectors.length
    · rw [getSector_setSector_self st.dump 0 s hlen] at hOK ⊢
      unfold sector.getBlock at hOK ⊢
      rw [hs] at hOK ⊢
      unfold sector.setBlock at hOK ⊢
      simp only at hOK ⊢
      by_cases hib : iBlock = 0
      · subst hib
        by_cases hbl : 0 < (st.dump.getSector 0).blocks.length
        · rw [getD_set_self _ 0 b _ hbl] at hOK ⊢
          exact hb
        · have hnoop : (st.dump.getSector 0).blocks.set 0 b = (st.dump.getSector 0).blocks :=
            List.set_eq_of_length_le (by omega)
          rw [hnoop] at hOK ⊢
          exact hinv hOK
      · rw [getD_set_ne _ iBlock 0 b _ hib] at hOK ⊢
        exact hinv hOK
    · have hnoop : st.dump.sectors.set 0 s = st.dump.sectors :=
        List.set_eq_of_length_le (by omega)
      simp only [dumpMifare_1k.setSector, dumpMifare_1k.getSector, hnoop] at hOK ⊢
      exact hinv hOK
  · rw [getSector_setSector_ne st.dump iS 0 s hiS] at hOK ⊢
    exact hinv hOK

/-- Under a transport on which every exchange succeeds with 16 bytes, one
block-loop iteration always takes the `.ok` path and keeps the block-0
invariant. -/
theorem readBlockStep_allOk16 {tr : Transport} (h : allOk16 tr) (iS nB0 iBlock : Nat)
    (st : scanState) (hinv : block0Inv st) :
    ∃ st', readBlockStep tr iS nB0 iBlock st = Except.ok st' ∧ block0Inv st' := by
  obtain ⟨resp, hdt, hlen⟩ := doTransmit_allOk16 h st.callIdx (readFrame (nB0 + iBlock))
  unfold readBlockStep
  rw [hdt]
  simp only
  by_cases hlast : iBlock + 1 = MIFARE_1K_blocks_per_sector
  · rw [if_pos hlast, processLastBlock_eq_of_len16 _ resp hlen]
    exact ⟨_, rfl, block0Inv_setBlock iS iBlock _ _ rfl hinv hlen rfl⟩
  · rw [if_neg hlast]
    exact ⟨_, rfl, block0Inv_setBlock iS iBlock _ _ rfl hinv hlen rfl⟩

theorem readBlocksLoop_allOk16 {tr : Transport} (h : allOk16 tr) (iS nB0 : Nat) (rem : Nat) :
    ∀ (iBlock fc : Nat) (st : scanState), block0Inv st →
      ∃ st', readBlocksLoop tr iS nB0 rem iBlock fc st = Except.ok (fc, st') ∧ block0Inv st' := by
  induction rem with
  | zero =>
      intro iBlock fc st hinv
      exact ⟨st, readBlocksLoop_zero tr iS nB0 iBlock fc st, hinv⟩
  | succ rem ih =>
      intro iBlock fc st hinv
      obtain ⟨st1, hstep, hinv1⟩ := readBlockStep_allOk16 h iS nB0 iBlock st hinv
      obtain ⟨st', hloop, hinv'⟩ := ih (iBlock + 1) fc st1 hinv1
      refine ⟨st', ?_, hinv'⟩
      rw [readBlocksLoop_succ, hstep]
      exact hloop

theorem processSector_allOk16 {tr : Transport} (h : allOk16 tr) (keyA : List Nat)
    (iS : Nat) (st : scanState) (hinv : block0Inv st) :
    ∃ st', processSector tr keyA iS st = Except.ok st' ∧ block0Inv st' := by
  obtain ⟨r1, hdt1, _⟩ := doTransmit_allOk16 h st.callIdx (loadKeyFrame keyA)
  obtain ⟨r2, hdt2, _⟩ :=
    doTransmit_allOk16 h (bumpState (loadKeyFrame keyA) st).callIdx (authFrame (iS * 4))
  have hinv3 : block0Inv (setSectorStatus
      (bumpState (authFrame (iS * 4)) (bumpState (loadKeyFrame keyA) st)) iS status.OK) :=
    block0Inv_setSectorStatus
      (hinv : block0Inv (bumpState (authFrame (iS * 4)) (bumpState (loadKeyFrame keyA) st)))
      iS status.OK
  obtain ⟨st4, hloop, hinv4⟩ := readBlocksLoop_allOk16 h iS (iS * 4)
    (((setSectorStatus (bumpState (authFrame (iS * 4)) (bumpState (loadKeyFrame keyA) st)) iS
        status.OK).dump.getSector iS).blocks.length) 0 0
    (setSectorStatus (bumpState (authFrame (iS * 4)) (bumpState (loadKeyFrame keyA) st)) iS
        status.OK) hinv3
  refine ⟨st4, ?_, hinv4⟩
  unfold processSector
  simp only
  rw [hdt1, hdt2, hloop]
  rfl

theorem scanSectors_allOk16 {tr : Transport} (h : allOk16 tr) (keyA : List Nat)
    (fsOnly : Bool) (rem : Nat) :
    ∀ (iSector : Nat) (st : scanState), block0Inv st →
      ∃ st', scanSectors tr keyA fsOnly rem iSector st = Except.ok st' ∧ block0Inv st' := by
  induction rem with
  | zero =>
      intro iSector st hinv
      exact ⟨st, scanSectors_zero tr keyA fsOnly iSector st, hinv⟩
  | succ rem ih =>
      intro iSector st hinv
      obtain ⟨st1, hps, hinv1⟩ := processSector_allOk16 h keyA iSector st hinv
      cases fsOnly with
      | true =>
          refine ⟨st1, ?_, hinv1⟩
          rw [scanSectors_succ, hps]
          rfl
      | false =>
          obtain ⟨st', hscan, hinv'⟩ := ih (iSector + 1) st1 hinv1
          refine ⟨st', ?_, hinv'⟩
          rw [scanSectors_succ, hps]
          exact hscan

/-- When block 0 of sector 0 is either not `OK` or carries more than 4 bytes,
`head.read` takes no exception path. -/
theorem head_read_ok (hd : head) (b : block) (hb : b.status = status.OK → 4 < b.data.length) :
    ∃ h', head.read hd b = Except.ok h' := by
  unfold head.read
  by_cases hst : b.status = status.OK
  · rw [if_pos hst, if_pos (hb hst)]
    exact ⟨_, rfl⟩
  · rw [if_neg hst]
    exact ⟨hd, rfl⟩

/-- Unfolding equation of `dump_mifare_1k`. -/
theorem dump_mifare_1k_eq (tr : Transport) (d : dumpMifare_1k) (fsOnly : Bool) (keyA : List Nat) :
    dump_mifare_1k tr d fsOnly keyA =
      match scanSectors tr keyA fsOnly d.sectors.length 0 { dump := d, callIdx := 0, trace := [] } with
      | Except.error st => ({ st.dump with status := status.READ_ERROR }, st.trace)
      | Except.ok st =>
          match st.dump.head.read ((st.dump.getSector 0).getBlock 0) with
          | Except.ok h => ({ st.dump with head := h }, st.trace)
          | Except.error h => ({ st.dump with head := h, status := status.READ_ERROR }, st.trace) := rfl

/-! ## Range of the access codes -/

theorem codeEntry_le_seven (a b c : Nat) (ha : a ≤ 1) (hb : b ≤ 1) (hc : c ≤ 1) :
    ((a <<< 2) ||| b) ||| c ≤ 7 := by
  have hpow : (2 : Nat) ^ 3 = 8 := by norm_num
  have hsl : a <<< 2 = a * 4 := by
    rw [Nat.shiftLeft_eq]
  have h1 : a <<< 2 < 2 ^ 3 := by omega
  have h2 : b < 2 ^ 3 := by omega
  have h3 : c < 2 ^ 3 := by omega
  have h4 := Nat.or_lt_two_pow (Nat.or_lt_two_pow h1 h2) h3
  omega

theorem ite_le_one (P : Prop) [Decidable P] : (if P then 1 else 0) ≤ 1 := by
  split <;> omega

theorem parseAccessBits_mem_le (b6 b7 : Nat) :
    ∀ c ∈ parseAccessBits b6 b7, c ≤ 7 := by
  intro c hc
  simp only [parseAccessBits, List.mem_cons, List.not_mem_nil, or_false] at hc
  rcases hc with rfl | rfl | rfl | rfl <;>
    exact codeEntry_le_seven _ _ _ Nat.and_le_right (ite_le_one _) Nat.and_le_right

theorem bitAccessMap_isSome : ∀ c < 8, (bitAccessMap c).isSome = true := by decide

theorem parseAccessBits_length (b6 b7 : Nat) : (parseAccessBits b6 b7).length = 4 := rfl

theorem parseAccessBits_getD_le (b6 b7 i : Nat) :
    (parseAccessBits b6 b7).getD i 0 ≤ 7 := by
  by_cases hi : i < 4
  · refine parseAccessBits_mem_le b6 b7 _ ?_
    have hi' : i < (parseAccessBits b6 b7).length := by rw [parseAccessBits_length]; omega
    rw [List.getD_eq_getElem?_getD, List.getElem?_eq_getElem hi']
    exact List.getElem_mem _
  · have hi' : (parseAccessBits b6 b7).length ≤ i := by rw [parseAccessBits_length]; omega
    rw [List.getD_eq_getElem?_getD, List.getElem?_eq_none hi']
    simp

/-! ## Result of a run, by case on the scan outcome -/

theorem dump_run_scan_error (tr : Transport) (d0 : dumpMifare_1k) (fsOnly : Bool)
    (keyA : List Nat) (st : scanState)
    (h : scanSectors tr keyA fsOnly d0.sectors.length 0
        { dump := d0, callIdx := 0, trace := [] } = Except.error st) :
    dump_mifare_1k tr d0 fsOnly keyA =
      ({ st.dump with status := status.READ_ERROR }, st.trace) := by
  rw [dump_mifare_1k_eq, h]

theorem dump_run_headRead_ok (tr : Transport) (d0 : dumpMifare_1k) (fsOnly : Bool)
    (keyA : List Nat) (st : scanState) (h' : head)
    (hscan : scanSectors tr keyA fsOnly d0.sectors.length 0
        { dump := d0, callIdx := 0, trace := [] } = Except.ok st)
    (hhr : st.dump.head.read ((st.dump.getSector 0).getBlock 0) = Except.ok h') :
    dump_mifare_1k tr d0 fsOnly keyA = ({ st.dump with head := h' }, st.trace) := by
  rw [dump_mifare_1k_eq, hscan]
  show (match st.dump.head.read ((st.dump.getSector 0).getBlock 0) with
        | Except.ok h => ({ st.dump with head := h }, st.trace)
        | Except.error h => ({ st.dump with head := h, status := status.READ_ERROR }, st.trace)) =
    ({ st.dump with head := h' }, st.trace)
  rw [hhr]

theorem dump_run_headRead_error (tr : Transport) (d0 : dumpMifare_1k) (fsOnly : Bool)
    (keyA : List Nat) (st : scanState) (h' : head)
    (hscan : scanSectors tr keyA fsOnly d0.sectors.length 0
        { dump := d0, callIdx := 0, trace := [] } = Except.ok st)
    (hhr : st.dump.head.read ((st.dump.getSector 0).getBlock 0) = Except.error h') :
    dump_mifare_1k tr d0 fsOnly keyA =
      ({ st.dump with head := h', status := status.READ_ERROR }, st.trace) := by
  rw [dump_mifare_1k_eq, hscan]
  show (match st.dump.head.read ((st.dump.getSector 0).getBlock 0) with
        | Except.ok h => ({ st.dump with head := h }, st.trace)
        | Except.error h => ({ st.dump with head := h, status := status.READ_ERROR }, st.trace)) =
    ({ st.dump with head := h', status := status.READ_ERROR }, st.trace)
  rw [hhr]

/-! ## Claim theorems -/

/-- C2 — counter-evaluation.  The claim states that `parseAccessBits` returns,
for block `i`, `(bit2<<2)|(bit1<<1)|bit0` of the inverted `b6`/`b7` (the
formula `specAccessCode`).  The code instead contains `< 1` (a comparison)
where the formula requires `<< 1`, so the middle bit is inverted and lands in
bit position 0: at `b6 = b7 = 0xFF` (inverted bytes all zero) the spec
formula gives code 0 for every block but the code returns 1; at the canonical
transport-configuration bytes `b6 = 0xFF, b7 = 0x07` the spec formula gives
code 3 for block 3 but the code returns 1. -/
theorem parseAccessBits_deviates_from_spec_formula :
    parseAccessBits 0xFF 0xFF = [1, 1, 1, 1] ∧
    specAccessCode 0xFF 0xFF 0 = 0 ∧ specAccessCode 0xFF 0xFF 1 = 0 ∧
    specAccessCode 0xFF 0xFF 2 = 0 ∧ specAccessCode 0xFF 0xFF 3 = 0 ∧
    parseAccessBits 0xFF 0x07 = [1, 1, 1, 1] ∧ specAccessCode 0xFF 0x07 3 = 3 := by
  decide

/-- C8 — for all input bytes `b6, b7` in 0..255 (and any checking byte `b8`),
each of the four per-block codes returned by `parseAccessBits` is a value in
0..7, and hence the lookup performed by `accessBitsToStr` through
`bitAccessMap` always finds an entry. -/
theorem parseAccessBits_range (b6 b7 b8 : Nat) (_h6 : b6 ≤ 255) (_h7 : b7 ≤ 255)
    (i : Nat) (hi : i < 4) :
    (parseAccessBits b6 b7).getD i 0 ≤ 7 ∧
    ((accessBitsToStr [b6, b7, b8]).getD i none).isSome = true := by
  refine ⟨parseAccessBits_getD_le b6 b7 i, ?_⟩
  have hmap : accessBitsToStr [b6, b7, b8] = (parseAccessBits b6 b7).map bitAccessMap := rfl
  have hi' : i < (parseAccessBits b6 b7).length := by rw [parseAccessBits_length]; omega
  rw [hmap, List.getD_eq_getElem?_getD, List.getElem?_map, List.getElem?_eq_getElem hi']
  refine bitAccessMap_isSome _ ?_
  have hle := parseAccessBits_getD_le b6 b7 i
  rw [List.getD_eq_getElem?_getD, List.getElem?_eq_getElem hi', Option.getD_some] at hle
  omega

/-- Witness for C8 at `b6 = b7 = b8 = 0`, block 0. -/
theorem parseAccessBits_range_witness :
    (parseAccessBits 0 0).getD 0 0 ≤ 7 ∧
    ((accessBitsToStr [0, 0, 0]).getD 0 none).isSome = true :=
  parseAccessBits_range 0 0 0 (by decide) (by decide) 0 (by decide)

/-- C3 — counter-evaluation.  The claim states that on a transport exception
or a status word other than `0x9000`, `doTransmit` returns the *pair*
`(success = false, payload = none)`.  The code instead executes the bare
`return False` (line 136): a single boolean, modelled by the
`doTransmitResult.falseOnly` constructor, distinct from every
`doTransmitResult.pair _`.  The exception is indeed swallowed (both failure
shapes below go through the `except` clause or the status-word test without
raising), and on `0x9000` the pair `True, response` is returned — but the
failure value is not a pair, which is why the unpacking caller at line 175
raises `TypeError`. -/
theorem doTransmit_failure_returns_bare_false :
    doTransmit trFail63 0 (loadKeyFrame MIFARE_1K_default_key) = doTransmitResult.falseOnly ∧
    doTransmit trExn 0 (loadKeyFrame MIFARE_1K_default_key) = doTransmitResult.falseOnly ∧
    doTransmit trAllOk 0 (loadKeyFrame MIFARE_1K_default_key) =
      doTransmitResult.pair (List.replicate 16 0) := by
  decide

/-- C1 — counter-evaluation of Scenario C.  On a transport where load-key and
authenticate succeed and the reads of blocks 0, 1, 3 succeed but the read of
block 2 fails, the claim says block 2 ends `READ_ERROR`, the sector ends
`READ_ERROR`, and blocks 0, 1, 3 keep their data.  The code instead crashes
unpacking `doTransmit`'s bare `False` (`TypeError` at line 175), caught by
the outer handler: the *overall* dump status becomes `READ_ERROR`, the
sector status stays `OK` (set before the loop), block 2 and block 3 stay
`NOINIT` (block 3 is never read — the trace stops at the block-2 frame), and
only blocks 0 and 1 keep their read data. -/
theorem dump_scenC_block2_read_failure_aborts :
    scenCRun.1.status = status.READ_ERROR ∧
    (scenCRun.1.getSector 0).status = status.OK ∧
    ((scenCRun.1.getSector 0).getBlock 0).status = status.OK ∧
    ((scenCRun.1.getSector 0).getBlock 0).data = List.replicate 16 0x11 ∧
    ((scenCRun.1.getSector 0).getBlock 1).status = status.OK ∧
    ((scenCRun.1.getSector 0).getBlock 1).data = List.replicate 16 0x22 ∧
    ((scenCRun.1.getSector 0).getBlock 2).status = status.NOINIT ∧
    ((scenCRun.1.getSector 0).getBlock 3).status = status.NOINIT ∧
    scenCRun.2 = [loadKeyFrame MIFARE_1K_default_key, authFrame 0,
                  readFrame 0, readFrame 1, readFrame 2] := by
  decide

/-- C4 — a `WriteRequest` with scope `Block` targeting block-within-sector
index 3 (the trailer) is rejected with a `ValidationError` before any
transmission: the write engine returns the trailer-block rejection and its
transmit trace is empty.  (`WriteEngine` is modelled from the spec — the
write path is not under `src/`.) -/
theorem writeEngine_rejects_trailer_block_target (r : WriteRequest)
    (hscope : r.addressScope = addressScope.Block)
    (hblk : r.blockIndexWithinSector = 3) :
    writeEngineRun r = (Except.error writeRejection.trailerBlockTarget, []) := by
  obtain ⟨scope, si, bi, payload⟩ := r
  cases hscope
  cases hblk
  rfl

/-- Witness for C4 at a concrete trailer-targeting request. -/
theorem writeEngine_rejects_trailer_block_target_witness :
    writeEngineRun { addressScope := addressScope.Block, sectorIndex := 1,
                     blockIndexWithinSector := 3, payload := List.replicate 16 0 } =
      (Except.error writeRejection.trailerBlockTarget, []) :=
  writeEngine_rejects_trailer_block_target _ rfl rfl

/-- C5 — `dump_mifare_1k` transmits exactly the spec's byte frames: the
load-key frame is `[FF,82,00,00,06] ++ key`, the authenticate-with-key-A
frame for block address `a` is `[FF,86,00,00,05,01,00,a,60,00]`, the
read-block frame is `[FF,B0,00,a,10]`, and every frame in the transmit trace
of any run is of one of these three shapes. -/
theorem dump_frames_match_spec :
    (∀ keyA, loadKeyFrame keyA = [0xFF, 0x82, 0x00, 0x00, 0x06] ++ keyA) ∧
    (∀ a, authFrame a = [0xFF, 0x86, 0x00, 0x00, 0x05, 0x01, 0x00, a, 0x60, 0x00]) ∧
    (∀ a, readFrame a = [0xFF, 0xB0, 0x00, a, 0x10]) ∧
    (∀ (tr : Transport) (d0 : dumpMifare_1k) (fsOnly : Bool) (keyA f : List Nat),
        f ∈ (dump_mifare_1k tr d0 fsOnly keyA).2 → specFrame keyA f) := by
  refine ⟨fun _ => rfl, fun _ => rfl, fun _ => rfl, ?_⟩
  intro tr d0 fsOnly keyA f hf
  cases hscan : scanSectors tr keyA fsOnly d0.sectors.length 0
      { dump := d0, callIdx := 0, trace := [] } with
  | error st =>
      rw [dump_run_scan_error tr d0 fsOnly keyA st hscan] at hf
      have hf' : f ∈ st.trace := hf
      have hpost := (scanSectors_core tr keyA fsOnly d0.sectors.length 0
        { dump := d0, callIdx := 0, trace := [] }).1 st hscan
      rcases hpost.2 f hf' with hmem | hspec
      · exact absurd hmem (List.not_mem_nil f)
      · exact hspec
  | ok st =>
      have hpost := (scanSectors_core tr keyA fsOnly d0.sectors.length 0
        { dump := d0, callIdx := 0, trace := [] }).2 st hscan
      have hf' : f ∈ st.trace := by
        cases hhr : st.dump.head.read ((st.dump.getSector 0).getBlock 0) with
        | ok h =>
            rw [dump_run_headRead_ok tr d0 fsOnly keyA st h hscan hhr] at hf
            exact hf
        | error h =>
            rw [dump_run_headRead_error tr d0 fsOnly keyA st h hscan hhr] at hf
            exact hf
      rcases hpost.2 f hf' with hmem | hspec
      · exact absurd hmem (List.not_mem_nil f)
      · exact hspec

/-- Witness for C5: on the all-rejected transport the trace is the single
load-key frame, and it has a spec shape. -/
theorem dump_frames_match_spec_witness :
    loadKeyFrame MIFARE_1K_default_key ∈
      (dump_mifare_1k trFail63 dumpMifare_1k.init true MIFARE_1K_default_key).2 ∧
    specFrame MIFARE_1K_default_key (loadKeyFrame MIFARE_1K_default_key) :=
  ⟨by decide,
   dump_frames_match_spec.2.2.2 trFail63 dumpMifare_1k.init true MIFARE_1K_default_key
     (loadKeyFrame MIFARE_1K_default_key) (by decide)⟩

/-- C6 — `processLastBlock` on a 16-byte trailer block sets `accessBits` to
bytes 6..8, the general-purpose byte to byte 9, `keyB` to bytes 10..15, and
copies `keyA` unchanged; the Scenario A content yields
`accessBits = [FF,07,80]`, `GPB = 0x69`, `keyB = [12,34,56,78,9A,BC]`; and no
run of `dump_mifare_1k`, on any transport, ever changes any trailer's
`keyA`. -/
theorem processLastBlock_trailer_layout :
    (∀ (t : trailer) (data : List Nat), data.length = 16 →
        t.processLastBlock data =
          Except.ok { keyA := t.keyA, keyB := (data.drop 10).take 6,
                      accessBits := (data.drop 6).take 3, GPB := data.getD 9 0,
                      status := status.OK }) ∧
    trailer.processLastBlock trailer.init scenAData =
      Except.ok { keyA := MIFARE_1K_default_key,
                  keyB := [0x12, 0x34, 0x56, 0x78, 0x9A, 0xBC],
                  accessBits := [0xFF, 0x07, 0x80], GPB := 0x69,
                  status := status.OK } ∧
    (∀ (tr : Transport) (d0 : dumpMifare_1k) (fsOnly : Bool) (keyA : List Nat) (i : Nat),
        (((dump_mifare_1k tr d0 fsOnly keyA).1.getSector i).trailer).keyA =
          ((d0.getSector i).trailer).keyA) := by
  refine ⟨processLastBlock_eq_of_len16, ?_, ?_⟩
  · rw [processLastBlock_eq_of_len16 trailer.init scenAData (by decide)]
    exact congrArg Except.ok (by decide)
  · intro tr d0 fsOnly keyA i
    cases hscan : scanSectors tr keyA fsOnly d0.sectors.length 0
        { dump := d0, callIdx := 0, trace := [] } with
    | error st =>
        rw [dump_run_scan_error tr d0 fsOnly keyA st hscan]
        exact ((scanSectors_core tr keyA fsOnly d0.sectors.length 0
          { dump := d0, callIdx := 0, trace := [] }).1 st hscan).1.2.2 i
    | ok st =>
        have hkeep := ((scanSectors_core tr keyA fsOnly d0.sectors.length 0
          { dump := d0, callIdx := 0, trace := [] }).2 st hscan).1.2.2 i
        cases hhr : st.dump.head.read ((st.dump.getSector 0).getBlock 0) with
        | ok h =>
            rw [dump_run_headRead_ok tr d0 fsOnly keyA st h hscan hhr]
            exact hkeep
        | error h =>
            rw [dump_run_headRead_error tr d0 fsOnly keyA st h hscan hhr]
            exact hkeep

/-- Witness for C6: applying the layout theorem at a concrete 16-byte
block. -/
theorem processLastBlock_trailer_layout_witness :
    trailer.processLastBlock trailer.init (List.replicate 16 0xAB) =
      Except.ok { keyA := MIFARE_1K_default_key, keyB := List.replicate 6 0xAB,
                  accessBits := List.replicate 3 0xAB, GPB := 0xAB,
                  status := status.OK } := by
  rw [processLastBlock_trailer_layout.1 trailer.init (List.replicate 16 0xAB) (by decide)]
  exact congrArg Except.ok (by decide)

/-- C7 — when a sector's load-key exchange comes back falsy, that sector's
iteration returns normally with the sector status set to `KEY_ERROR`, the
trace extended by exactly the single load-key frame (so zero authenticate
and zero read frames are transmitted for that sector, and exactly one
`transmit` call was made), the sector's blocks and trailer untouched, and
all other sectors untouched; consequently a first-sector-only run on a fresh
dump whose first exchange is falsy transmits only the load-key frame and
leaves sector 0 in `KEY_ERROR`. -/
theorem keyError_sector_skipped :
    (∀ (tr : Transport) (keyA : List Nat) (i : Nat) (st : scanState),
        i < st.dump.sectors.length →
        doTransmit tr st.callIdx (loadKeyFrame keyA) = doTransmitResult.falseOnly →
        ∃ st', processSector tr keyA i st = Except.ok st' ∧
          st'.trace = st.trace ++ [loadKeyFrame keyA] ∧
          st'.callIdx = st.callIdx + 1 ∧
          (st'.dump.getSector i).status = status.KEY_ERROR ∧
          (st'.dump.getSector i).blocks = (st.dump.getSector i).blocks ∧
          (st'.dump.getSector i).trailer = (st.dump.getSector i).trailer ∧
          (∀ j, j ≠ i → st'.dump.getSector j = st.dump.getSector j)) ∧
    (∀ (tr : Transport) (keyA : List Nat),
        doTransmit tr 0 (loadKeyFrame keyA) = doTransmitResult.falseOnly →
        (dump_mifare_1k tr dumpMifare_1k.init true keyA).2 = [loadKeyFrame keyA] ∧
        ((dump_mifare_1k tr dumpMifare_1k.init true keyA).1.getSector 0).status =
          status.KEY_ERROR) := by
  constructor
  · intro tr keyA i st hlen hfalsy
    refine ⟨setSectorStatus (bumpState (loadKeyFrame keyA) st) i status.KEY_ERROR,
            ?_, rfl, rfl, ?_, ?_, ?_, ?_⟩
    · unfold processSector
      rw [hfalsy]
    · show ((st.dump.setSector i
          { st.dump.getSector i with status := status.KEY_ERROR }).getSector i).status =
        status.KEY_ERROR
      rw [getSector_setSector_self _ i _ hlen]
    · show ((st.dump.setSector i
          { st.dump.getSector i with status := status.KEY_ERROR }).getSector i).blocks =
        (st.dump.getSector i).blocks
      rw [getSector_setSector_self _ i _ hlen]
    · show ((st.dump.setSector i
          { st.dump.getSector i with status := status.KEY_ERROR }).getSector i).trailer =
        (st.dump.getSector i).trailer
      rw [getSector_setSector_self _ i _ hlen]
    · intro j hj
      exact getSector_setSector_ne st.dump i j _ (fun e => hj e.symm)
  · intro tr keyA hfalsy
    have h0 : doTransmit tr
        ({ dump := dumpMifare_1k.init, callIdx := 0, trace := [] } : scanState).callIdx
        (loadKeyFrame keyA) = doTransmitResult.falseOnly := hfalsy
    have hps : processSector tr keyA 0
        { dump := dumpMifare_1k.init, callIdx := 0, trace := [] } =
        Except.ok (setSectorStatus (bumpState (loadKeyFrame keyA)
          { dump := dumpMifare_1k.init, callIdx := 0, trace := [] }) 0 status.KEY_ERROR) := by
      unfold processSector
      rw [h0]
    have hscan : scanSectors tr keyA true dumpMifare_1k.init.sectors.length 0
        { dump := dumpMifare_1k.init, callIdx := 0, trace := [] } =
        Except.ok (setSectorStatus (bumpState (loadKeyFrame keyA)
          { dump := dumpMifare_1k.init, callIdx := 0, trace := [] }) 0 status.KEY_ERROR) := by
      show scanSectors tr keyA true (15 + 1) 0 _ = _
      rw [scanSectors_succ, hps]
      rfl
    have hrun := dump_run_headRead_ok tr dumpMifare_1k.init true keyA _
      dumpMifare_1k.init.head hscan rfl
    rw [hrun]
    exact ⟨rfl, rfl⟩

/-- Witness for C7: the all-rejected transport with the default key. -/
theorem keyError_sector_skipped_witness :
    (dump_mifare_1k trFail63 dumpMifare_1k.init true MIFARE_1K_default_key).2 =
      [loadKeyFrame MIFARE_1K_default_key] ∧
    ((dump_mifare_1k trFail63 dumpMifare_1k.init true MIFARE_1K_default_key).1.getSector 0).status =
      status.KEY_ERROR :=
  keyError_sector_skipped.2 trFail63 MIFARE_1K_default_key (by decide)

/-- C9 — when the sector scan raises (the `Except.error` case of the model),
the handler of `dump_mifare_1k` catches it (the function still returns a
value — no exception escapes), sets the overall status to `READ_ERROR`, and
keeps everything populated before the raise: the returned dump's sectors,
head and transmit trace are exactly those at the raise point, and the scan
itself never modified the overall status field. -/
theorem dump_exception_sets_read_error (tr : Transport) (d0 : dumpMifare_1k)
    (fsOnly : Bool) (keyA : List Nat) (st : scanState)
    (h : scanSectors tr keyA fsOnly d0.sectors.length 0
        { dump := d0, callIdx := 0, trace := [] } = Except.error st) :
    (dump_mifare_1k tr d0 fsOnly keyA).1.status = status.READ_ERROR ∧
    (dump_mifare_1k tr d0 fsOnly keyA).1.sectors = st.dump.sectors ∧
    (dump_mifare_1k tr d0 fsOnly keyA).1.head = st.dump.head ∧
    (dump_mifare_1k tr d0 fsOnly keyA).2 = st.trace ∧
    st.dump.status = d0.status := by
  have hpost := (scanSectors_core tr keyA fsOnly d0.sectors.length 0
    { dump := d0, callIdx := 0, trace := [] }).1 st h
  rw [dump_run_scan_error tr d0 fsOnly keyA st h]
  exact ⟨rfl, rfl, rfl, rfl, hpost.1.1⟩

/-- Witness for C9: the Scenario C transport raises mid-scan. -/
theorem dump_exception_sets_read_error_witness :
    (dump_mifare_1k trScenC dumpMifare_1k.init true MIFARE_1K_default_key).1.status =
      status.READ_ERROR :=
  (dump_exception_sets_read_error trScenC dumpMifare_1k.init true MIFARE_1K_default_key
    _ rfl).1

/-- C10 — `dump_mifare_1k` never sets the overall status to `OK`: on every
transport the final overall status is either the initial one (`NOINIT` for a
fresh dump) or `READ_ERROR` (the only assignment, made on the exception
path), and on a run in which every APDU exchange succeeds with a 16-byte
response the overall status of a fresh dump still holds `NOINIT`. -/
theorem dump_overall_status_never_ok :
    (∀ (tr : Transport) (d0 : dumpMifare_1k) (fsOnly : Bool) (keyA : List Nat),
        (dump_mifare_1k tr d0 fsOnly keyA).1.status = d0.status ∨
        (dump_mifare_1k tr d0 fsOnly keyA).1.status = status.READ_ERROR) ∧
    (∀ (tr : Transport) (fsOnly : Bool) (keyA : List Nat), allOk16 tr →
        (dump_mifare_1k tr dumpMifare_1k.init fsOnly keyA).1.status = status.NOINIT) := by
  constructor
  · intro tr d0 fsOnly keyA
    cases hscan : scanSectors tr keyA fsOnly d0.sectors.length 0
        { dump := d0, callIdx := 0, trace := [] } with
    | error st =>
        right
        rw [dump_run_scan_error tr d0 fsOnly keyA st hscan]
    | ok st =>
        have hcore := (scanSectors_core tr keyA fsOnly d0.sectors.length 0
          { dump := d0, callIdx := 0, trace := [] }).2 st hscan
        cases hhr : st.dump.head.read ((st.dump.getSector 0).getBlock 0) with
        | ok h =>
            left
            rw [dump_run_headRead_ok tr d0 fsOnly keyA st h hscan hhr]
            exact hcore.1.1
        | error h =>
            right
            rw [dump_run_headRead_error tr d0 fsOnly keyA st h hscan hhr]
  · intro tr fsOnly keyA hok
    have hinv0 : block0Inv
        { dump := dumpMifare_1k.init, callIdx := 0, trace := [] } := by
      intro hOK
      exact absurd hOK (by decide)
    obtain ⟨st', hscan, hinv'⟩ := scanSectors_allOk16 hok keyA fsOnly
      dumpMifare_1k.init.sectors.length 0
      { dump := dumpMifare_1k.init, callIdx := 0, trace := [] } hinv0
    have hcore := (scanSectors_core tr keyA fsOnly dumpMifare_1k.init.sectors.length 0
      { dump := dumpMifare_1k.init, callIdx := 0, trace := [] }).2 st' hscan
    obtain ⟨h', hhr⟩ := head_read_ok st'.dump.head ((st'.dump.getSector 0).getBlock 0)
      (fun hOK => by rw [hinv' hOK]; omega)
    rw [dump_run_headRead_ok tr dumpMifare_1k.init fsOnly keyA st' h' hscan hhr]
    exact hcore.1.1

/-- Witness for C10: on the all-succeeding transport the overall status of a
fresh first-sector-only dump is still `NOINIT`. -/
theorem dump_overall_status_never_ok_witness :
    (dump_mifare_1k trAllOk dumpMifare_1k.init true MIFARE_1K_default_key).1.status =
      status.NOINIT :=
  dump_overall_status_never_ok.2 trAllOk true MIFARE_1K_default_key
    (fun _ _ => ⟨List.replicate 16 0, rfl, by decide⟩)

end DoCard

